import Mathlib

/-!
Verification of the element lifecycle engine (`gpui/src/elements/new.rs`).

The source file defines:
* a capability contract `Element` (layout / after_layout / paint /
  dispatch_event / metadata / debug) with two associated per-phase state
  types (`LayoutState`, `PaintState`);
* a lifecycle state machine `Lifecycle<T>` with variants `Init`,
  `PostLayout`, `PostPaint`;
* a type-erased handle `ElementBox` with an optional debug name, whose
  `debug` post-processes the inner json value.

The embedding below translates those items.  Rust `&mut` receivers become
explicit state passing: every element operation returns the (possibly
updated) element together with any `&mut` arguments it received.  A Rust
`panic!` becomes the `Outcome.panicked` constructor carrying the panic
message, and a failed `debug_assert!` becomes `Outcome.assertionFailed`
(only reachable when the build-mode flag `dbg` is `true`).  The opaque
collaborator types (constraints, contexts, events, metadata) are type
parameters, never inspected, exactly as in the source.
-/

/-- Model of an `f32` scalar.  The only scalar operation this core uses is
`is_finite` (in `debug_assert!`), so a scalar is a rational value or one of
the non-finite markers; no arithmetic is needed. -/
inductive F32 where
  | finite (q : ℚ)
  | infinite
  | nan
deriving DecidableEq

/-- `f32::is_finite`. -/
def F32.isFinite : F32 → Bool
  | .finite _ => true
  | .infinite => false
  | .nan => false

/-- Model of `Vector2F`: a two-dimensional vector. -/
structure Vector2F where
  x : F32
  y : F32
deriving DecidableEq

/-- Model of `RectF`: origin plus size, as constructed by `RectF::new`. -/
structure RectF where
  origin : Vector2F
  size : Vector2F
deriving DecidableEq

/-- Model of `serde_json::Value`: scalars, sequences, and ordered
key-value maps (an object is a list of entries in insertion order). -/
inductive JsonValue where
  | null
  | bool (b : Bool)
  | num (q : ℚ)
  | str (s : String)
  | arr (elems : List JsonValue)
  | obj (entries : List (String × JsonValue))

/-- The number of entries of a json object (`0` for non-objects). -/
def JsonValue.entryCount : JsonValue → Nat
  | .obj entries => entries.length
  | _ => 0

/-- Whether a json value is an object (`json::Value::Object`). -/
def JsonValue.isObj : JsonValue → Bool
  | .obj _ => true
  | _ => false

/-- Modelled from the spec: the structured debug value format's ordered
key-value map (§6: "ordered key-value maps"; the map type itself lives
outside this source file).  `insert` on an ordered map replaces the value
in place when the key is already present, keeping the entry's position,
and otherwise appends a new entry at the end. -/
def mapInsert (k : String) (v : JsonValue) (m : List (String × JsonValue)) :
    List (String × JsonValue) :=
  if m.any (fun e => e.1 = k) then
    m.map (fun e => if e.1 = k then (k, v) else e)
  else
    m ++ [(k, v)]

/-- Modelled from the spec: `append` on the ordered map moves every entry
of `src` into `dst`, in order, with `insert` semantics for each entry. -/
def mapAppend (dst src : List (String × JsonValue)) :
    List (String × JsonValue) :=
  src.foldl (fun acc e => mapInsert e.1 e.2 acc) dst

/-- The panic message used by every invalid-state arm in the source. -/
def invalidStateMsg : String := "invalid element lifecycle state"

/-- The outcome of a lifecycle operation: a well-typed result, a fatal
`panic!` carrying its diagnostic message, or a failed `debug_assert!`. -/
inductive Outcome (α : Type _) where
  | ok (a : α)
  | panicked (msg : String)
  | assertionFailed
deriving DecidableEq

/-- Whether an outcome is a success. -/
def Outcome.isOk {α : Type _} : Outcome α → Bool
  | .ok _ => true
  | _ => false

/-- The `Element` capability contract, over a concrete element type `El`
with associated state types `Ls` (`LayoutState`) and `Ps` (`PaintState`).
The constraint, context, event and metadata types are the opaque external
collaborators.  Each operation returns the updated element and the updated
contents of every `&mut` argument it received in the source signature. -/
structure ElementImpl (El Ls Ps C LCtx ALCtx PCtx ECtx DCtx Ev Meta : Type) where
  layout : El → C → LCtx → El × Vector2F × Ls
  after_layout : El → Vector2F → Ls → ALCtx → El × Ls
  paint : El → RectF → Ls → PCtx → El × Ls × Ps
  dispatch_event : El → Ev → RectF → Ls → Ps → ECtx → El × Ls × Ps × Bool
  metadata : El → Option Meta := fun _ => none
  debug : El → RectF → Ls → Ps → DCtx → JsonValue

/-- The lifecycle state machine `Lifecycle<T>`. -/
inductive Lifecycle (El Ls Ps : Type) where
  | Init (element : El)
  | PostLayout (element : El) (size : Vector2F) (layout : Ls)
  | PostPaint (element : El) (bounds : RectF) (layout : Ls) (paint : Ps)
deriving DecidableEq

section Model

variable {El Ls Ps C LCtx ALCtx PCtx ECtx DCtx Ev Meta : Type}

/-- The element owned by the current variant (every variant holds one). -/
def Lifecycle.element : Lifecycle El Ls Ps → El
  | .Init e => e
  | .PostLayout e _ _ => e
  | .PostPaint e _ _ _ => e

/-- Whether the state is `Init`. -/
def Lifecycle.isInit : Lifecycle El Ls Ps → Bool
  | .Init _ => true
  | _ => false

/-- Whether the state is `PostLayout`. -/
def Lifecycle.isPostLayout : Lifecycle El Ls Ps → Bool
  | .PostLayout _ _ _ => true
  | _ => false

/-- Whether the state is `PostPaint`. -/
def Lifecycle.isPostPaint : Lifecycle El Ls Ps → Bool
  | .PostPaint _ _ _ _ => true
  | _ => false

/-- `Lifecycle::layout`: from any variant, run the element's layout,
check the measured size is finite (`debug_assert!`, active only when
`dbg = true`), and install `PostLayout`, returning the measured size.
Any previously held layout or paint state is discarded with the old
variant. -/
def Lifecycle.layout (dbg : Bool)
    (impl : ElementImpl El Ls Ps C LCtx ALCtx PCtx ECtx DCtx Ev Meta)
    (constraint : C) (ctx : LCtx) (s : Lifecycle El Ls Ps) :
    Outcome (Vector2F × Lifecycle El Ls Ps) :=
  let (element, size, layout) := impl.layout s.element constraint ctx
  if dbg && !(size.x.isFinite && size.y.isFinite) then
    .assertionFailed
  else
    .ok (size, .PostLayout element size layout)

/-- `Lifecycle::after_layout`: requires `PostLayout`; runs the element's
reaction with the stored size and `&mut` layout state and stays in
`PostLayout` with the same size; any other variant panics. -/
def Lifecycle.after_layout
    (impl : ElementImpl El Ls Ps C LCtx ALCtx PCtx ECtx DCtx Ev Meta)
    (ctx : ALCtx) : Lifecycle El Ls Ps → Outcome (Lifecycle El Ls Ps)
  | .PostLayout e size ls =>
    let (e', ls') := impl.after_layout e size ls ctx
    .ok (.PostLayout e' size ls')
  | _ => .panicked invalidStateMsg

/-- `Lifecycle::paint`: requires `PostLayout`; builds
`bounds = RectF::new(origin, size)`, runs the element's paint with the
`&mut` layout state, and installs `PostPaint`; any other variant
panics. -/
def Lifecycle.paint
    (impl : ElementImpl El Ls Ps C LCtx ALCtx PCtx ECtx DCtx Ev Meta)
    (origin : Vector2F) (ctx : PCtx) :
    Lifecycle El Ls Ps → Outcome (Lifecycle El Ls Ps)
  | .PostLayout e size ls =>
    let bounds : RectF := ⟨origin, size⟩
    let (e', ls', ps) := impl.paint e bounds ls ctx
    .ok (.PostPaint e' bounds ls' ps)
  | _ => .panicked invalidStateMsg

/-- `Lifecycle::dispatch_event`: requires `PostPaint`; runs the element's
handler with the stored bounds and `&mut` layout and paint state, stays in
`PostPaint` with the same bounds, and returns the handled flag; any other
variant panics. -/
def Lifecycle.dispatch_event
    (impl : ElementImpl El Ls Ps C LCtx ALCtx PCtx ECtx DCtx Ev Meta)
    (event : Ev) (ctx : ECtx) :
    Lifecycle El Ls Ps → Outcome (Bool × Lifecycle El Ls Ps)
  | .PostPaint e bounds ls ps =>
    let (e', ls', ps', handled) := impl.dispatch_event e event bounds ls ps ctx
    .ok (handled, .PostPaint e' bounds ls' ps')
  | _ => .panicked invalidStateMsg

/-- `Lifecycle::size`: the measured size in `PostLayout`, the size
component of the bounds in `PostPaint`, and a panic in `Init`. -/
def Lifecycle.size : Lifecycle El Ls Ps → Outcome Vector2F
  | .Init _ => .panicked invalidStateMsg
  | .PostLayout _ size _ => .ok size
  | .PostPaint _ bounds _ _ => .ok bounds.size

/-- `Lifecycle::metadata`: forwards the element's metadata from every
variant; there is no panic path, so the result is returned directly. -/
def Lifecycle.metadata
    (impl : ElementImpl El Ls Ps C LCtx ALCtx PCtx ECtx DCtx Ev Meta)
    (s : Lifecycle El Ls Ps) : Option Meta :=
  impl.metadata s.element

/-- `Lifecycle::debug`: requires `PostPaint`; produces the element's debug
value from the stored bounds, layout state and paint state; any other
variant panics. -/
def Lifecycle.debug
    (impl : ElementImpl El Ls Ps C LCtx ALCtx PCtx ECtx DCtx Ev Meta)
    (ctx : DCtx) : Lifecycle El Ls Ps → Outcome JsonValue
  | .PostPaint e bounds ls ps => .ok (impl.debug e bounds ls ps ctx)
  | _ => .panicked invalidStateMsg

end Model

/-- The handle `ElementBox`: an optional debug name plus the (type-erased)
lifecycle cell.  In the embedding the cell keeps its type parameters; type
erasure only hides them from Rust callers and plays no role in the claims
about behavior. -/
structure ElementBox (El Ls Ps : Type) where
  name : Option String
  element : Lifecycle El Ls Ps

section Handle

variable {El Ls Ps C LCtx ALCtx PCtx ECtx DCtx Ev Meta : Type}

/-- `ElementBox::debug`: obtain the inner debug value; when a name was
attached and the value is an object, build a fresh map, `insert` the
`"name"` entry, then `append` the original map's entries; otherwise return
the value unchanged. -/
def ElementBox.debug
    (impl : ElementImpl El Ls Ps C LCtx ALCtx PCtx ECtx DCtx Ev Meta)
    (ctx : DCtx) (box : ElementBox El Ls Ps) : Outcome JsonValue :=
  match Lifecycle.debug impl ctx box.element with
  | .ok value =>
    match box.name, value with
    | some name, .obj map =>
      .ok (.obj (mapAppend (mapInsert "name" (.str name) []) map))
    | _, v => .ok v
  | .panicked m => .panicked m
  | .assertionFailed => .assertionFailed

end Handle

/-- A fallible variant of the transition-relevant operations, for the
crash-only transition mechanics (`replace_with_or_abort`): `none` models
the concrete element's operation failing to produce a result while the
old variant is already consumed. -/
structure FallibleOps (El Ls Ps C LCtx PCtx : Type) where
  layout : El → C → LCtx → Option (El × Vector2F × Ls)
  paint : El → RectF → Ls → PCtx → Option (El × Ls × Ps)

section Fallible

variable {El Ls Ps C LCtx PCtx : Type}

/-- `Lifecycle::layout` through `replace_with_or_abort`: either the
element's operation produces its full result and the new `PostLayout`
variant is built from exactly that result (`some`), or the operation fails
and the process aborts (`none`); no third, partial outcome exists. -/
def Lifecycle.layoutOrAbort (ops : FallibleOps El Ls Ps C LCtx PCtx)
    (constraint : C) (ctx : LCtx) (s : Lifecycle El Ls Ps) :
    Option (Vector2F × Lifecycle El Ls Ps) :=
  match ops.layout s.element constraint ctx with
  | none => none
  | some (e', size, ls) => some (size, .PostLayout e' size ls)

/-- `Lifecycle::paint` through `replace_with_or_abort`, from `PostLayout`:
either the element's paint produces its full result and the `PostPaint`
variant is built from exactly that result, or the process aborts. -/
def Lifecycle.paintOrAbort (ops : FallibleOps El Ls Ps C LCtx PCtx)
    (origin : Vector2F) (ctx : PCtx) (e : El) (size : Vector2F) (ls : Ls) :
    Option (Lifecycle El Ls Ps) :=
  match ops.paint e ⟨origin, size⟩ ls ctx with
  | none => none
  | some (e', ls', ps) => some (.PostPaint e' ⟨origin, size⟩ ls' ps)

end Fallible

/-! ### Concrete elements used by witnesses and counterexamples -/

/-- A concrete rectangle used in witnesses. -/
def rect0 : RectF := ⟨⟨.finite 0, .finite 0⟩, ⟨.finite 1, .finite 2⟩⟩

/-- A trivial concrete element: finite size `(1, 2)`, scalar debug value,
default (non-overridden) metadata. -/
def trivImpl : ElementImpl Nat Nat Nat Unit Unit Unit Unit Unit Unit Unit Nat where
  layout := fun e _ _ => (e, ⟨.finite 1, .finite 2⟩, 0)
  after_layout := fun e _ ls _ => (e, ls)
  paint := fun e _ ls _ => (e, ls, 0)
  dispatch_event := fun e _ _ ls ps _ => (e, ls, ps, true)
  debug := fun _ _ _ _ _ => .str "triv"

/-- A concrete element whose debug value is a map that already contains a
`"name"` key. -/
def namedDebugImpl : ElementImpl Nat Nat Nat Unit Unit Unit Unit Unit Unit Unit Nat where
  layout := fun e _ _ => (e, ⟨.finite 1, .finite 2⟩, 0)
  after_layout := fun e _ ls _ => (e, ls)
  paint := fun e _ ls _ => (e, ls, 0)
  dispatch_event := fun e _ _ ls ps _ => (e, ls, ps, false)
  debug := fun _ _ _ _ _ => .obj [("name", .str "orig"), ("type", .str "text")]

/-- A concrete element whose debug value is the spec's example map
`{"type": "text", "content": "hi"}` (no `"name"` key). -/
def mapDebugImpl : ElementImpl Nat Nat Nat Unit Unit Unit Unit Unit Unit Unit Nat where
  layout := fun e _ _ => (e, ⟨.finite 1, .finite 2⟩, 0)
  after_layout := fun e _ ls _ => (e, ls)
  paint := fun e _ ls _ => (e, ls, 0)
  dispatch_event := fun e _ _ ls ps _ => (e, ls, ps, false)
  debug := fun _ _ _ _ _ => .obj [("type", .str "text"), ("content", .str "hi")]

/-- A concrete element whose `dispatch_event` updates the layout and paint
state it receives by `&mut` reference. -/
def mutatingImpl : ElementImpl Nat Nat Nat Unit Unit Unit Unit Unit Unit Unit Nat where
  layout := fun e _ _ => (e, ⟨.finite 1, .finite 2⟩, 0)
  after_layout := fun e _ ls _ => (e, ls)
  paint := fun e _ ls _ => (e, ls, 0)
  dispatch_event := fun e _ _ ls ps _ => (e, ls + 1, ps + 1, true)
  debug := fun _ _ _ _ _ => .null

/-- A concrete element whose layout reports a non-finite width. -/
def infiniteImpl : ElementImpl Nat Nat Nat Unit Unit Unit Unit Unit Unit Unit Nat where
  layout := fun e _ _ => (e, ⟨.infinite, .finite 0⟩, 0)
  after_layout := fun e _ ls _ => (e, ls)
  paint := fun e _ ls _ => (e, ls, 0)
  dispatch_event := fun e _ _ ls ps _ => (e, ls, ps, false)
  debug := fun _ _ _ _ _ => .null

/-- Fallible concrete operations that always fail mid-transition. -/
def failingOps : FallibleOps Nat Nat Nat Unit Unit Unit where
  layout := fun _ _ _ => none
  paint := fun _ _ _ _ => none

/-- Fallible concrete operations that always produce a full result. -/
def okOps : FallibleOps Nat Nat Nat Unit Unit Unit where
  layout := fun e _ _ => some (e, ⟨.finite 1, .finite 2⟩, 0)
  paint := fun e _ ls _ => some (e, ls, 3)

/-! ### Ordered-map lemmas for the handle's debug post-processing -/

/-- Inserting a key that no entry of `m` carries appends the entry. -/
theorem mapInsert_fresh (k : String) (v : JsonValue)
    (m : List (String × JsonValue)) (h : ∀ x ∈ m, x.1 ≠ k) :
    mapInsert k v m = m ++ [(k, v)] := by
  have hany : (m.any (fun e => decide (e.1 = k))) = false := by
    simp only [List.any_eq_false, decide_eq_true_eq]
    exact h
  simp [mapInsert, hany]

/-- Inserting a key held by the head entry (and by no other entry)
replaces the head's value in place. -/
theorem mapInsert_existing_head (k : String) (v w : JsonValue)
    (m : List (String × JsonValue)) (h : ∀ x ∈ m, x.1 ≠ k) :
    mapInsert k w ((k, v) :: m) = (k, w) :: m := by
  have hany : (((k, v) :: m).any (fun e => decide (e.1 = k))) = true := by
    simp
  simp only [mapInsert, hany, if_true, List.map_cons]
  congr 1
  calc m.map (fun e => if e.1 = k then (k, w) else e)
      = m.map id := List.map_congr_left (fun x hx => by rw [if_neg (h x hx)]; rfl)
    _ = m := List.map_id m

/-- Appending entries whose keys are pairwise distinct and absent from
`dst` is plain concatenation. -/
theorem mapAppend_fresh (src : List (String × JsonValue)) :
    ∀ dst : List (String × JsonValue),
      (src.map Prod.fst).Nodup →
      (∀ x ∈ src, ∀ a ∈ dst, a.1 ≠ x.1) →
      mapAppend dst src = dst ++ src := by
  induction src with
  | nil => intro dst _ _; simp [mapAppend]
  | cons x rest ih =>
    intro dst hnd hdisj
    rw [List.map_cons] at hnd
    obtain ⟨hx, hrest⟩ := List.nodup_cons.mp hnd
    have hstep : mapInsert x.1 x.2 dst = dst ++ [x] := by
      rw [mapInsert_fresh x.1 x.2 dst
        (fun a ha => hdisj x (List.mem_cons_self _ _) a ha)]
    have hdisj' : ∀ y ∈ rest, ∀ a ∈ dst ++ [x], a.1 ≠ y.1 := by
      intro y hy a ha
      rcases List.mem_append.mp ha with h | h
      · exact hdisj y (List.mem_cons_of_mem _ hy) a h
      · rcases List.mem_singleton.mp h with rfl
        intro heq
        exact hx (heq ▸ List.mem_map_of_mem Prod.fst hy)
    calc mapAppend dst (x :: rest)
        = mapAppend (mapInsert x.1 x.2 dst) rest := rfl
      _ = mapAppend (dst ++ [x]) rest := by rw [hstep]
      _ = (dst ++ [x]) ++ rest := ih (dst ++ [x]) hrest hdisj'
      _ = dst ++ (x :: rest) := by simp

/-- Appending a map that already holds a `"name"` entry onto the
singleton `"name" -> n` map keeps `"name"` first but overwrites its value
with the map's own, and keeps every other entry in relative order. -/
theorem mapAppend_name_override (n : String) (w : JsonValue)
    (m1 m2 : List (String × JsonValue))
    (hnd : ((m1 ++ ("name", w) :: m2).map Prod.fst).Nodup) :
    mapAppend [("name", JsonValue.str n)] (m1 ++ ("name", w) :: m2)
      = ("name", w) :: (m1 ++ m2) := by
  rw [List.map_append, List.map_cons, List.nodup_append] at hnd
  obtain ⟨hnd1, hnd2c, hdisj⟩ := hnd
  obtain ⟨hname2, hnd2⟩ := List.nodup_cons.mp hnd2c
  have hname1 : "name" ∉ m1.map Prod.fst := by
    intro hmem
    exact hdisj hmem (List.mem_cons_self _ _)
  have h1 : ∀ x ∈ m1, x.1 ≠ "name" := by
    intro x hx heq
    exact hname1 (heq ▸ List.mem_map_of_mem Prod.fst hx)
  have stepA : mapAppend [("name", JsonValue.str n)] m1
      = ("name", JsonValue.str n) :: m1 := by
    rw [mapAppend_fresh m1 [("name", JsonValue.str n)] hnd1 ?_]
    · rfl
    · intro x hx a ha
      rcases List.mem_singleton.mp ha with rfl
      exact fun heq => h1 x hx heq.symm
  have stepB : mapInsert "name" w (("name", JsonValue.str n) :: m1)
      = ("name", w) :: m1 :=
    mapInsert_existing_head "name" (JsonValue.str n) w m1 h1
  have h2 : ∀ y ∈ m2, ∀ a ∈ ("name", w) :: m1, a.1 ≠ y.1 := by
    intro y hy a ha heq
    rcases List.mem_cons.mp ha with rfl | hmem
    · exact hname2 (heq ▸ List.mem_map_of_mem Prod.fst hy)
    · exact hdisj (heq ▸ List.mem_map_of_mem Prod.fst hmem)
        (List.mem_cons_of_mem _ (List.mem_map_of_mem Prod.fst hy))
  calc mapAppend [("name", JsonValue.str n)] (m1 ++ ("name", w) :: m2)
      = mapAppend (mapAppend [("name", JsonValue.str n)] m1) (("name", w) :: m2) := by
        simp [mapAppend, List.foldl_append]
    _ = mapAppend (("name", JsonValue.str n) :: m1) (("name", w) :: m2) := by rw [stepA]
    _ = mapAppend (mapInsert "name" w (("name", JsonValue.str n) :: m1)) m2 := rfl
    _ = mapAppend (("name", w) :: m1) m2 := by rw [stepB]
    _ = (("name", w) :: m1) ++ m2 := mapAppend_fresh m2 _ hnd2 h2
    _ = ("name", w) :: (m1 ++ m2) := rfl

/-! ### Claims -/

section Claims

variable {El Ls Ps C LCtx ALCtx PCtx ECtx DCtx Ev Meta : Type}

/-- C1 counterexample: the claim says the fatal diagnostic names the
offending operation, but every invalid-state arm panics with the same
fixed message `"invalid element lifecycle state"`.  At the concrete input
`Init`, both `paint` and `after_layout` produce that identical message,
and no operation name occurs in the message as a substring. -/
theorem c1_counterexample :
    Lifecycle.paint trivImpl ⟨.finite 0, .finite 0⟩ () (.Init 0) = .panicked invalidStateMsg
  ∧ Lifecycle.after_layout trivImpl () (.Init 0) = .panicked invalidStateMsg
  ∧ ¬ List.IsInfix "paint".toList invalidStateMsg.toList
  ∧ ¬ List.IsInfix "after_layout".toList invalidStateMsg.toList
  ∧ ¬ List.IsInfix "dispatch_event".toList invalidStateMsg.toList
  ∧ ¬ List.IsInfix "size".toList invalidStateMsg.toList
  ∧ ¬ List.IsInfix "debug".toList invalidStateMsg.toList := by
  refine ⟨rfl, rfl, ?_, ?_, ?_, ?_, ?_⟩ <;> decide

/-- C1 (amended): for every concrete element type, calling `after_layout`
or `paint` outside `PostLayout`, `dispatch_event` or `debug` outside
`PostPaint`, or `size` in `Init`, fails fatally — always with the same
diagnostic `"invalid element lifecycle state"`, which does not name the
offending operation — and each of these operations succeeds in its
correct state. -/
theorem c1_invalid_state_fatal
    (impl : ElementImpl El Ls Ps C LCtx ALCtx PCtx ECtx DCtx Ev Meta)
    (actx : ALCtx) (origin : Vector2F) (pctx : PCtx) (ev : Ev) (ectx : ECtx)
    (dctx : DCtx) (e : El) (sz : Vector2F) (ls : Ls) (b : RectF) (ps : Ps) :
    Lifecycle.after_layout impl actx (.Init e) = .panicked invalidStateMsg
  ∧ Lifecycle.after_layout impl actx (.PostPaint e b ls ps) = .panicked invalidStateMsg
  ∧ (Lifecycle.after_layout impl actx (.PostLayout e sz ls)).isOk = true
  ∧ Lifecycle.paint impl origin pctx (.Init e) = .panicked invalidStateMsg
  ∧ Lifecycle.paint impl origin pctx (.PostPaint e b ls ps) = .panicked invalidStateMsg
  ∧ (Lifecycle.paint impl origin pctx (.PostLayout e sz ls)).isOk = true
  ∧ Lifecycle.dispatch_event impl ev ectx (.Init e) = .panicked invalidStateMsg
  ∧ Lifecycle.dispatch_event impl ev ectx (.PostLayout e sz ls) = .panicked invalidStateMsg
  ∧ (Lifecycle.dispatch_event impl ev ectx (.PostPaint e b ls ps)).isOk = true
  ∧ Lifecycle.debug impl dctx (.Init e) = .panicked invalidStateMsg
  ∧ Lifecycle.debug impl dctx (.PostLayout e sz ls) = .panicked invalidStateMsg
  ∧ (Lifecycle.debug impl dctx (.PostPaint e b ls ps)).isOk = true
  ∧ Lifecycle.size (Lifecycle.Init e : Lifecycle El Ls Ps) = .panicked invalidStateMsg
  ∧ (Lifecycle.size (Lifecycle.PostLayout e sz ls : Lifecycle El Ls Ps)).isOk = true
  ∧ (Lifecycle.size (Lifecycle.PostPaint e b ls ps : Lifecycle El Ls Ps)).isOk = true := by
  exact ⟨rfl, rfl, rfl, rfl, rfl, rfl, rfl, rfl, rfl, rfl, rfl, rfl, rfl, rfl, rfl⟩

/-- C6 counterexample: the claim says `dispatch_event` does not mutate the
stored layout or paint state, but the concrete element receives both by
`&mut` reference; `mutatingImpl` increments them, so from
`PostPaint _ _ 5 7` the stored states become `6` and `8`. -/
theorem c6_counterexample :
    Lifecycle.dispatch_event mutatingImpl () () (.PostPaint 0 rect0 5 7)
      = .ok (true, .PostPaint 0 rect0 6 8)
  ∧ Lifecycle.dispatch_event mutatingImpl () () (.PostPaint 0 rect0 5 7)
      ≠ .ok (true, .PostPaint 0 rect0 5 7) := by
  refine ⟨rfl, ?_⟩
  decide

/-- C6 (amended): in `PostPaint`, `dispatch_event` returns exactly the
boolean the concrete element's handler returned and stays in `PostPaint`
with the same bounds; the stored element, layout state and paint state
become whatever the handler produced through its exclusive mutable
access. -/
theorem c6_dispatch_event_postpaint
    (impl : ElementImpl El Ls Ps C LCtx ALCtx PCtx ECtx DCtx Ev Meta)
    (ev : Ev) (ectx : ECtx) (e : El) (b : RectF) (ls : Ls) (ps : Ps) :
    Lifecycle.dispatch_event impl ev ectx (.PostPaint e b ls ps)
      = .ok ((impl.dispatch_event e ev b ls ps ectx).2.2.2,
             .PostPaint (impl.dispatch_event e ev b ls ps ectx).1 b
               (impl.dispatch_event e ev b ls ps ectx).2.1
               (impl.dispatch_event e ev b ls ps ectx).2.2.1) := rfl

/-- C7: `metadata` is callable from every lifecycle state without error,
returns the same value in all three states (forwarding the concrete
element's metadata), and an element that keeps the default (does not
override `metadata`) yields `none`. -/
theorem c7_metadata_state_independent
    (impl : ElementImpl El Ls Ps C LCtx ALCtx PCtx ECtx DCtx Ev Meta)
    (e : El) (sz : Vector2F) (ls : Ls) (b : RectF) (ps : Ps) :
    Lifecycle.metadata impl (.Init e) = impl.metadata e
  ∧ Lifecycle.metadata impl (.PostLayout e sz ls) = impl.metadata e
  ∧ Lifecycle.metadata impl (.PostPaint e b ls ps) = impl.metadata e
  ∧ (impl.metadata = (fun _ => none) → Lifecycle.metadata impl (.Init e) = none) := by
  refine ⟨rfl, rfl, rfl, fun h => ?_⟩
  simp [Lifecycle.metadata, h]

/-- C7 witness: `trivImpl` keeps the default metadata, and in every state
the query returns `none` (shown here at `Init`). -/
theorem c7_witness :
    trivImpl.metadata = (fun _ => none)
  ∧ Lifecycle.metadata trivImpl (.Init 0) = none :=
  ⟨rfl, (c7_metadata_state_independent trivImpl 0 ⟨.finite 0, .finite 0⟩ 0 rect0 0).2.2.2 rfl⟩

/-- C8: when the concrete element's layout reports a size with a
non-finite component, the lifecycle layout fails the `debug_assert!` in a
debug build (`dbg = true`), while a release build (`dbg = false`) accepts
the size unchecked and completes the transition to `PostLayout`
normally. -/
theorem c8_nonfinite_size_assert
    (impl : ElementImpl El Ls Ps C LCtx ALCtx PCtx ECtx DCtx Ev Meta)
    (c : C) (lctx : LCtx) (s : Lifecycle El Ls Ps)
    (h : ((impl.layout s.element c lctx).2.1.x.isFinite
          && (impl.layout s.element c lctx).2.1.y.isFinite) = false) :
    Lifecycle.layout true impl c lctx s = .assertionFailed
  ∧ Lifecycle.layout false impl c lctx s
      = .ok ((impl.layout s.element c lctx).2.1,
             .PostLayout (impl.layout s.element c lctx).1
               (impl.layout s.element c lctx).2.1
               (impl.layout s.element c lctx).2.2) := by
  constructor
  · simp [Lifecycle.layout, h]
  · simp [Lifecycle.layout]

/-- C8 witness: `infiniteImpl` reports width `∞`; in a debug build layout
fails the assertion, in a release build it transitions to `PostLayout`. -/
theorem c8_witness :
    ((infiniteImpl.layout ((Lifecycle.Init 0 : Lifecycle Nat Nat Nat).element) () ()).2.1.x.isFinite
      && (infiniteImpl.layout ((Lifecycle.Init 0 : Lifecycle Nat Nat Nat).element) () ()).2.1.y.isFinite) = false
  ∧ Lifecycle.layout true infiniteImpl () () (.Init 0) = .assertionFailed
  ∧ Lifecycle.layout false infiniteImpl () () (.Init 0)
      = .ok (⟨.infinite, .finite 0⟩, .PostLayout 0 ⟨.infinite, .finite 0⟩ 0) := by
  refine ⟨by decide, ?_⟩
  have h := c8_nonfinite_size_assert infiniteImpl () () (.Init 0) (by decide)
  exact ⟨h.1, h.2⟩

/-- C2: from every lifecycle variant, `layout` succeeds (here under the
finite-size condition that makes the `debug_assert!` pass, so the
statement covers debug and release builds alike) and leaves the machine
in `PostLayout`, which holds no paint state; consequently
`dispatch_event` and `debug` on the resulting state fail fatally until a
new paint runs. -/
theorem c2_layout_from_any_state (dbg : Bool)
    (impl : ElementImpl El Ls Ps C LCtx ALCtx PCtx ECtx DCtx Ev Meta)
    (c : C) (lctx : LCtx) (ev : Ev) (ectx : ECtx) (dctx : DCtx)
    (s : Lifecycle El Ls Ps)
    (hfin : ((impl.layout s.element c lctx).2.1.x.isFinite
             && (impl.layout s.element c lctx).2.1.y.isFinite) = true) :
    ∃ e' sz ls,
      Lifecycle.layout dbg impl c lctx s = .ok (sz, .PostLayout e' sz ls)
    ∧ Lifecycle.dispatch_event impl ev ectx (.PostLayout e' sz ls)
        = .panicked invalidStateMsg
    ∧ Lifecycle.debug impl dctx (.PostLayout e' sz ls) = .panicked invalidStateMsg := by
  rcases hl : impl.layout s.element c lctx with ⟨e', sz, ls⟩
  rw [hl] at hfin
  simp only at hfin
  refine ⟨e', sz, ls, ?_, rfl, rfl⟩
  simp [Lifecycle.layout, hl, hfin]

/-- C2 witness: a second layout from `PostPaint` re-enters `PostLayout`,
and event dispatch on that state panics. -/
theorem c2_witness :
    ((trivImpl.layout ((Lifecycle.PostPaint 0 rect0 4 5 : Lifecycle Nat Nat Nat).element) () ()).2.1.x.isFinite
      && (trivImpl.layout ((Lifecycle.PostPaint 0 rect0 4 5 : Lifecycle Nat Nat Nat).element) () ()).2.1.y.isFinite) = true
  ∧ ∃ e' sz ls,
      Lifecycle.layout true trivImpl () () (.PostPaint 0 rect0 4 5) = .ok (sz, .PostLayout e' sz ls)
    ∧ Lifecycle.dispatch_event trivImpl () () (.PostLayout e' sz ls) = .panicked invalidStateMsg
    ∧ Lifecycle.debug trivImpl () (.PostLayout e' sz ls) = .panicked invalidStateMsg :=
  ⟨by decide,
   c2_layout_from_any_state true trivImpl () () () () () (.PostPaint 0 rect0 4 5) (by decide)⟩

/-- C3: when `layout` returns size `sz` (state `st = PostLayout`),
`size()` on `st` returns `sz`; painting `st` at origin `o` stores bounds
`⟨o, sz⟩`, and `size()` afterwards returns the size component of those
bounds, which is still `sz`. -/
theorem c3_size_tracks_layout_then_paint (dbg : Bool)
    (impl : ElementImpl El Ls Ps C LCtx ALCtx PCtx ECtx DCtx Ev Meta)
    (c : C) (lctx : LCtx) (o : Vector2F) (pctx : PCtx)
    (s0 st : Lifecycle El Ls Ps) (sz : Vector2F)
    (h : Lifecycle.layout dbg impl c lctx s0 = .ok (sz, st)) :
    Lifecycle.size st = .ok sz
  ∧ ∃ e' ls' ps',
      Lifecycle.paint impl o pctx st = .ok (.PostPaint e' ⟨o, sz⟩ ls' ps')
    ∧ Lifecycle.size (Lifecycle.PostPaint e' ⟨o, sz⟩ ls' ps' : Lifecycle El Ls Ps)
        = .ok sz := by
  rcases hl : impl.layout s0.element c lctx with ⟨e1, sz1, ls1⟩
  unfold Lifecycle.layout at h
  rw [hl] at h
  simp only at h
  split at h
  · exact absurd h (by simp)
  · injection h with h'
    injection h' with h1 h2
    subst h1
    subst h2
    exact ⟨rfl, (impl.paint e1 ⟨o, sz1⟩ ls1 pctx).1,
      (impl.paint e1 ⟨o, sz1⟩ ls1 pctx).2.1, (impl.paint e1 ⟨o, sz1⟩ ls1 pctx).2.2,
      rfl, rfl⟩

/-- C3 witness: `trivImpl` measures `(1, 2)`; after layout, `size()`
returns `(1, 2)`, and painting at origin `(0, 0)` stores bounds with that
same size. -/
theorem c3_witness :
    Lifecycle.layout true trivImpl () () (.Init 0)
      = .ok (⟨.finite 1, .finite 2⟩,
             .PostLayout 0 ⟨.finite 1, .finite 2⟩ 0)
  ∧ (Lifecycle.size (Lifecycle.PostLayout 0 ⟨.finite 1, .finite 2⟩ 0 : Lifecycle Nat Nat Nat)
      = .ok ⟨.finite 1, .finite 2⟩
  ∧ ∃ e' ls' ps',
      Lifecycle.paint trivImpl ⟨.finite 0, .finite 0⟩ ()
          (.PostLayout 0 ⟨.finite 1, .finite 2⟩ 0)
        = .ok (.PostPaint e' ⟨⟨.finite 0, .finite 0⟩, ⟨.finite 1, .finite 2⟩⟩ ls' ps')
    ∧ Lifecycle.size
        (Lifecycle.PostPaint e' ⟨⟨.finite 0, .finite 0⟩, ⟨.finite 1, .finite 2⟩⟩ ls' ps'
          : Lifecycle Nat Nat Nat)
        = .ok ⟨.finite 1, .finite 2⟩) :=
  ⟨rfl, c3_size_tracks_layout_then_paint true trivImpl () ()
    ⟨.finite 0, .finite 0⟩ () (.Init 0) _ _ rfl⟩

/-- C10: the size returned by the lifecycle `layout` equals the size
stored in the resulting `PostLayout` variant, both being the size
component of the concrete element's layout result, so `layout`'s return
value and an immediately following `size()` query agree. -/
theorem c10_layout_size_consistency (dbg : Bool)
    (impl : ElementImpl El Ls Ps C LCtx ALCtx PCtx ECtx DCtx Ev Meta)
    (c : C) (lctx : LCtx) (s st : Lifecycle El Ls Ps) (sz : Vector2F)
    (h : Lifecycle.layout dbg impl c lctx s = .ok (sz, st)) :
    sz = (impl.layout s.element c lctx).2.1
  ∧ st = .PostLayout (impl.layout s.element c lctx).1 sz (impl.layout s.element c lctx).2.2
  ∧ Lifecycle.size st = .ok sz := by
  rcases hl : impl.layout s.element c lctx with ⟨e1, sz1, ls1⟩
  unfold Lifecycle.layout at h
  rw [hl] at h
  simp only at h
  split at h
  · exact absurd h (by simp)
  · injection h with h'
    injection h' with h1 h2
    subst h1
    subst h2
    exact ⟨rfl, rfl, rfl⟩

/-- C10 witness: in a release build, from `Init`, the returned size, the
stored size and the subsequent `size()` query all equal `(1, 2)`. -/
theorem c10_witness :
    Lifecycle.layout false trivImpl () () (.Init 7)
      = .ok (⟨.finite 1, .finite 2⟩, .PostLayout 7 ⟨.finite 1, .finite 2⟩ 0)
  ∧ ((⟨.finite 1, .finite 2⟩ : Vector2F)
       = (trivImpl.layout ((Lifecycle.Init 7 : Lifecycle Nat Nat Nat).element) () ()).2.1
  ∧ (Lifecycle.PostLayout 7 ⟨.finite 1, .finite 2⟩ 0 : Lifecycle Nat Nat Nat)
       = .PostLayout (trivImpl.layout ((Lifecycle.Init 7 : Lifecycle Nat Nat Nat).element) () ()).1
           ⟨.finite 1, .finite 2⟩
           (trivImpl.layout ((Lifecycle.Init 7 : Lifecycle Nat Nat Nat).element) () ()).2.2
  ∧ Lifecycle.size (Lifecycle.PostLayout 7 ⟨.finite 1, .finite 2⟩ 0 : Lifecycle Nat Nat Nat)
       = .ok ⟨.finite 1, .finite 2⟩) :=
  ⟨rfl, c10_layout_size_consistency false trivImpl () () (.Init 7) _ _ rfl⟩

/-- C5: each transition consumes the current variant and installs a new
variant built in one step from exactly the concrete operation's results;
in the functional model the slot always holds a valid variant — there is
no constructor for a torn state — and the only other outcome is the
crash-only abort (`none`), taken precisely when the concrete element's
operation fails to produce a result mid-transition
(`replace_with_or_abort`). -/
theorem c5_transition_atomic_or_abort
    (ops : FallibleOps El Ls Ps C LCtx PCtx) (c : C) (lctx : LCtx)
    (origin : Vector2F) (pctx : PCtx) (s : Lifecycle El Ls Ps)
    (e : El) (size : Vector2F) (ls : Ls) :
    (ops.layout s.element c lctx = none →
       Lifecycle.layoutOrAbort ops c lctx s = none)
  ∧ (∀ e' sz ls', ops.layout s.element c lctx = some (e', sz, ls') →
       Lifecycle.layoutOrAbort ops c lctx s = some (sz, .PostLayout e' sz ls'))
  ∧ (ops.paint e ⟨origin, size⟩ ls pctx = none →
       Lifecycle.paintOrAbort ops origin pctx e size ls = none)
  ∧ (∀ e' ls' ps', ops.paint e ⟨origin, size⟩ ls pctx = some (e', ls', ps') →
       Lifecycle.paintOrAbort ops origin pctx e size ls
         = some (.PostPaint e' ⟨origin, size⟩ ls' ps')) := by
  refine ⟨fun h => ?_, fun e' sz ls' h => ?_, fun h => ?_, fun e' ls' ps' h => ?_⟩
  · simp [Lifecycle.layoutOrAbort, h]
  · simp [Lifecycle.layoutOrAbort, h]
  · simp [Lifecycle.paintOrAbort, h]
  · simp [Lifecycle.paintOrAbort, h]

/-- C5 witness: a failing layout or paint aborts; a successful one
installs the full new variant. -/
theorem c5_witness :
    Lifecycle.layoutOrAbort failingOps () () (.Init 0) = none
  ∧ Lifecycle.layoutOrAbort okOps () () (.Init 0)
      = some (⟨.finite 1, .finite 2⟩, .PostLayout 0 ⟨.finite 1, .finite 2⟩ 0)
  ∧ Lifecycle.paintOrAbort failingOps ⟨.finite 0, .finite 0⟩ () 0 ⟨.finite 1, .finite 2⟩ 0 = none
  ∧ Lifecycle.paintOrAbort okOps ⟨.finite 0, .finite 0⟩ () 0 ⟨.finite 1, .finite 2⟩ 0
      = some (.PostPaint 0 ⟨⟨.finite 0, .finite 0⟩, ⟨.finite 1, .finite 2⟩⟩ 0 3) :=
  ⟨(c5_transition_atomic_or_abort failingOps () () ⟨.finite 0, .finite 0⟩ ()
      (.Init 0) 0 ⟨.finite 1, .finite 2⟩ 0).1 rfl,
   (c5_transition_atomic_or_abort okOps () () ⟨.finite 0, .finite 0⟩ ()
      (.Init 0) 0 ⟨.finite 1, .finite 2⟩ 0).2.1 0 ⟨.finite 1, .finite 2⟩ 0 rfl,
   (c5_transition_atomic_or_abort failingOps () () ⟨.finite 0, .finite 0⟩ ()
      (.Init 0) 0 ⟨.finite 1, .finite 2⟩ 0).2.2.1 rfl,
   (c5_transition_atomic_or_abort okOps () () ⟨.finite 0, .finite 0⟩ ()
      (.Init 0) 0 ⟨.finite 1, .finite 2⟩ 0).2.2.2 0 0 3 rfl⟩

/-- C4 counterexample: the claim predicts that a named handle always
returns `"name" -> <attached name>` first followed by all original
entries; but when the inner map already holds a `"name"` entry, the
attached name `"foo"` is overwritten by the original value `"orig"`, and
the result keeps two entries rather than the predicted three. -/
theorem c4_counterexample :
    ElementBox.debug namedDebugImpl ()
        ⟨some "foo", .PostPaint 0 rect0 0 0⟩
      = .ok (.obj [("name", .str "orig"), ("type", .str "text")])
  ∧ ElementBox.debug namedDebugImpl ()
        ⟨some "foo", .PostPaint 0 rect0 0 0⟩
      ≠ .ok (.obj [("name", .str "foo"), ("name", .str "orig"), ("type", .str "text")]) := by
  refine ⟨rfl, fun h => ?_⟩
  have h0 : ElementBox.debug namedDebugImpl ()
      ⟨some "foo", .PostPaint 0 rect0 0 0⟩
      = .ok (.obj [("name", .str "orig"), ("type", .str "text")]) := rfl
  rw [h0] at h
  injection h with h'
  have h2 := congrArg JsonValue.entryCount h'
  simp [JsonValue.entryCount] at h2

/-- C4 (amended): if a name was attached, the inner debug value is an
ordered key-value map, and that map does not already hold a `"name"`
entry, the handle returns `"name" -> <attached name>` followed by the
original entries in order; with no attached name, or a non-map inner
value, the inner value is returned unchanged.  (When the map already
holds `"name"`, see the C9 behavior.)  The `Nodup` hypothesis is the map
invariant of the external ordered-map type: keys are unique. -/
theorem c4_debug_name_injection
    (impl : ElementImpl El Ls Ps C LCtx ALCtx PCtx ECtx DCtx Ev Meta)
    (dctx : DCtx) (n : String) (e : El) (b : RectF) (ls : Ls) (ps : Ps) :
    (∀ m, impl.debug e b ls ps dctx = .obj m →
       (m.map Prod.fst).Nodup →
       (∀ x ∈ m, x.1 ≠ "name") →
       ElementBox.debug impl dctx ⟨some n, .PostPaint e b ls ps⟩
         = .ok (.obj (("name", .str n) :: m)))
  ∧ ElementBox.debug impl dctx ⟨none, .PostPaint e b ls ps⟩
      = .ok (impl.debug e b ls ps dctx)
  ∧ ((impl.debug e b ls ps dctx).isObj = false →
       ElementBox.debug impl dctx ⟨some n, .PostPaint e b ls ps⟩
         = .ok (impl.debug e b ls ps dctx)) := by
  refine ⟨fun m hm hnd hname => ?_, ?_, fun hobj => ?_⟩
  · have hdbg : Lifecycle.debug impl dctx (Lifecycle.PostPaint e b ls ps)
        = .ok (.obj m) := by
      simp only [Lifecycle.debug, hm]
    have hfresh : mapAppend [("name", JsonValue.str n)] m
        = ("name", JsonValue.str n) :: m := by
      rw [mapAppend_fresh m [("name", JsonValue.str n)] hnd ?_]
      · rfl
      · intro x hx a ha
        rcases List.mem_singleton.mp ha with rfl
        exact fun heq => hname x hx heq.symm
    simp only [ElementBox.debug, hdbg]
    rw [show mapInsert "name" (JsonValue.str n) [] = [("name", JsonValue.str n)] from rfl,
      hfresh]
  · cases hv : impl.debug e b ls ps dctx <;>
      simp [ElementBox.debug, Lifecycle.debug, hv]
  · cases hv : impl.debug e b ls ps dctx <;>
      first
        | (simp [ElementBox.debug, Lifecycle.debug, hv]; done)
        | (rw [hv] at hobj; simp [JsonValue.isObj] at hobj)

/-- C4 witness: the spec's example map `{"type": "text", "content":
"hi"}` under the name `"foo"` gains `"name" -> "foo"` in front; the same
element unnamed is unchanged; a named handle over a bare-string debug
value (`trivImpl`) is unchanged. -/
theorem c4_witness :
    ElementBox.debug mapDebugImpl () ⟨some "foo", .PostPaint 0 rect0 0 0⟩
      = .ok (.obj [("name", .str "foo"), ("type", .str "text"), ("content", .str "hi")])
  ∧ ElementBox.debug mapDebugImpl () ⟨none, .PostPaint 0 rect0 0 0⟩
      = .ok (.obj [("type", .str "text"), ("content", .str "hi")])
  ∧ ElementBox.debug trivImpl () ⟨some "foo", .PostPaint 0 rect0 0 0⟩
      = .ok (.str "triv") :=
  ⟨(c4_debug_name_injection mapDebugImpl () "foo" 0 rect0 0 0).1
      [("type", .str "text"), ("content", .str "hi")] rfl (by decide) (by decide),
   (c4_debug_name_injection mapDebugImpl () "foo" 0 rect0 0 0).2.1,
   (c4_debug_name_injection trivImpl () "foo" 0 rect0 0 0).2.2 rfl⟩

/-- C9: for a named handle whose inner debug map already holds a
`"name"` entry (with unique keys, the map invariant), the result keeps
`"name"` as the first entry but holds the inner map's original value —
the attached name is overwritten away — and all other entries keep their
original relative order. -/
theorem c9_name_key_overwritten
    (impl : ElementImpl El Ls Ps C LCtx ALCtx PCtx ECtx DCtx Ev Meta)
    (dctx : DCtx) (n : String) (w : JsonValue)
    (e : El) (b : RectF) (ls : Ls) (ps : Ps)
    (m1 m2 : List (String × JsonValue))
    (hm : impl.debug e b ls ps dctx = .obj (m1 ++ ("name", w) :: m2))
    (hnd : ((m1 ++ ("name", w) :: m2).map Prod.fst).Nodup) :
    ElementBox.debug impl dctx ⟨some n, .PostPaint e b ls ps⟩
      = .ok (.obj (("name", w) :: (m1 ++ m2))) := by
  have hdbg : Lifecycle.debug impl dctx (Lifecycle.PostPaint e b ls ps)
      = .ok (.obj (m1 ++ ("name", w) :: m2)) := by
    simp only [Lifecycle.debug, hm]
  simp only [ElementBox.debug, hdbg]
  rw [show mapInsert "name" (JsonValue.str n) [] = [("name", JsonValue.str n)] from rfl,
    mapAppend_name_override n w m1 m2 hnd]

/-- C9 witness: `namedDebugImpl`'s debug map is
`{"name": "orig", "type": "text"}`; named `"foo"`, the handle returns
`{"name": "orig", "type": "text"}` — `"orig"` kept first, `"foo"`
gone. -/
theorem c9_witness :
    namedDebugImpl.debug 9 rect0 0 0 ()
      = .obj ([] ++ ("name", JsonValue.str "orig") :: [("type", JsonValue.str "text")])
  ∧ ((([] ++ ("name", JsonValue.str "orig") :: [("type", JsonValue.str "text")]).map
        Prod.fst).Nodup)
  ∧ ElementBox.debug namedDebugImpl () ⟨some "foo", .PostPaint 9 rect0 0 0⟩
      = .ok (.obj (("name", JsonValue.str "orig") :: ([] ++ [("type", JsonValue.str "text")]))) :=
  ⟨rfl, by decide,
   c9_name_key_overwritten namedDebugImpl () "foo" (.str "orig") 9 rect0 0 0
     [] [("type", .str "text")] rfl (by decide)⟩

end Claims
